import Mathlib

/-!
Verification development for the worktree orchestration layer of the
`automaker` repository.

The repository ships the integration test suite for its worktree engine
(create / delete / commit / switch-branch / list operations over git
worktrees) together with the natural-language design document; the engine
implementation itself is consumed from a library that is not part of the
checked-in sources.  The definitions below therefore embed the engine as a
small state machine modelled from the design document, with the observable
behaviour pinned by the integration tests where the tests are explicit
(field names of request validation, result shapes, messages).

The board-column hook (`use-board-column-features.ts`) IS part of the
checked-in sources and is embedded directly from that file.
-/

namespace Automaker

/-! ### Substring machinery (model of JavaScript `String.prototype.includes`) -/

/-- `startsWithCL needle hay` is true when `needle` is a prefix of `hay`
(character-list version). -/
def startsWithCL : List Char → List Char → Bool
  | [], _ => true
  | _ :: _, [] => false
  | a :: as, b :: bs => a == b && startsWithCL as bs

/-- `containsCL needle hay` is true when `needle` occurs contiguously in `hay`. -/
def containsCL (needle : List Char) : List Char → Bool
  | [] => startsWithCL needle []
  | b :: bs => startsWithCL needle (b :: bs) || containsCL needle bs

/-- `strContains hay needle`: does `hay` contain `needle` as a substring? -/
def strContains (hay needle : String) : Bool :=
  containsCL needle.data hay.data

/-! ### Worktree path derivation

Modelled from the spec: "worktree path = `<repoRoot>/.worktrees/<sanitized
branchName>`, where sanitization deterministically replaces path-separator
characters in the branch name (e.g., `feature/x` → `feature-x`)".  The
integration tests pin the example: branch `feature/worktree-a` lives at
`.worktrees/feature-worktree-a`. -/

/-- Modelled from the spec: sanitize a branch name for use as a directory
name by replacing path-separator characters with hyphens. -/
def sanitizeBranchName (b : String) : String :=
  String.mk (b.data.map fun c => if c == '/' || c == '\\' then '-' else c)

/-- Modelled from the spec: the deterministic worktree path for a branch. -/
def getWorktreePath (repoRoot branchName : String) : String :=
  repoRoot ++ "/.worktrees/" ++ sanitizeBranchName branchName

/-! ### Repository state and worktree lifecycle

Modelled from the spec §3/§4.1.  A repository is a set of branch refs, a
current branch, a dirty flag for the main working tree, and the list of
linked worktrees (branch ↦ path). -/

/-- A linked working directory: its checked-out branch and its path. -/
structure LinkedWorktree where
  branch : String
  path : String
  deriving DecidableEq, Repr

/-- Modelled from the spec: the per-repository state the engine acts on. -/
structure RepoState where
  branches : List String
  currentBranch : String
  dirty : Bool
  worktrees : List LinkedWorktree
  deriving DecidableEq, Repr

/-- Descriptor returned by `create`. -/
structure CreateResult where
  branch : String
  path : String
  isNew : Bool
  deriving DecidableEq, Repr

/-- The worktree registry lookup: the linked worktree for a branch, if any. -/
def findWorktree (st : RepoState) (branchName : String) : Option LinkedWorktree :=
  st.worktrees.find? fun w => w.branch == branchName

/-- Modelled from the spec §4.1: `create(repoPath, branchName)` computes the
deterministic target path; if a worktree already exists for `branchName` it is
returned unchanged with `isNew = false` and no mutation occurs; otherwise the
branch is created if missing and the linked working directory is added at the
target path, returning `isNew = true`. -/
def create (st : RepoState) (repoRoot branchName : String) :
    RepoState × CreateResult :=
  match findWorktree st branchName with
  | some w => (st, ⟨w.branch, w.path, false⟩)
  | none =>
    let p := getWorktreePath repoRoot branchName
    let st1 : RepoState :=
      if st.branches.contains branchName then st
      else { st with branches := branchName :: st.branches }
    ({ st1 with worktrees := st1.worktrees ++ [⟨branchName, p⟩] },
     ⟨branchName, p, true⟩)

/-! ### Worktree listing

Modelled from the spec §4.1: `list` "enumerates every linked working
directory known to the tool plus the implicit main entry, deduplicated by
branch". -/

/-- One entry of a worktree listing. -/
structure WorktreeEntry where
  branch : String
  path : String
  isMain : Bool
  deriving DecidableEq, Repr

/-- Deduplicate a listing by branch name, keeping the first occurrence. -/
def dedupByBranch : List WorktreeEntry → List WorktreeEntry
  | [] => []
  | w :: ws => w :: dedupByBranch (ws.filter fun v => v.branch != w.branch)
termination_by l => l.length
decreasing_by
  simp only [List.length_cons]
  exact Nat.lt_succ_of_le (List.length_filter_le _ _)

/-- Modelled from the spec: `list(repoPath)` returns the implicit main entry
plus one entry per linked working directory, deduplicated by branch. -/
def listWorktrees (st : RepoState) (repoRoot : String) : List WorktreeEntry :=
  dedupByBranch
    (⟨st.currentBranch, repoRoot, true⟩ ::
      st.worktrees.map fun w => ⟨w.branch, w.path, false⟩)

/-! ### Branch switching

Modelled from the spec §4.2, checks in contract order 1→2→3→4: branch
existence, no-op shortcut, dirty-tree guard, checkout. -/

/-- Result of a successful branch switch. -/
structure SwitchResult where
  previousBranch : String
  currentBranch : String
  message : String
  deriving DecidableEq, Repr

/-- A typed operation error: optional machine-readable code plus message. -/
structure OpError where
  code : Option String
  message : String
  deriving DecidableEq, Repr

/-- The dirty-tree refusal message (the tests require it to contain the text
"uncommitted changes"). -/
def uncommittedChangesMessage : String :=
  "Cannot switch branches: You have uncommitted changes in your working directory"

/-- Modelled from the spec §4.2: `switch(repoPath, targetBranch)` checks, in
order, that the target branch exists, the no-op shortcut, the dirty-tree
guard, and only then performs the checkout. -/
def switch (st : RepoState) (targetBranch : String) :
    RepoState × Except OpError SwitchResult :=
  if st.branches.contains targetBranch then
    if targetBranch == st.currentBranch then
      (st, Except.ok ⟨st.currentBranch, st.currentBranch,
        "Already on branch " ++ targetBranch⟩)
    else if st.dirty then
      (st, Except.error ⟨some "UNCOMMITTED_CHANGES", uncommittedChangesMessage⟩)
    else
      ({ st with currentBranch := targetBranch },
       Except.ok ⟨st.currentBranch, targetBranch,
         "Switched to branch " ++ targetBranch⟩)
  else
    (st, Except.error ⟨none, "Branch " ++ targetBranch ++ " does not exist"⟩)

/-! ### Commit coordination

Modelled from the spec §4.3: stage everything; if the tree was already clean
return `{committed:false, message:"No changes to commit"}` as a success;
otherwise create a commit and return the first 8 hex characters of its full
hash.  Commit identifiers are modelled as 40-character lowercase hexadecimal
strings drawn from a per-worktree counter. -/

/-- Is `c` a lowercase hexadecimal digit? -/
def isLowerHexDigit (c : Char) : Bool :=
  ('0' <= c && c <= '9') || ('a' <= c && c <= 'f')

/-- The lowercase hexadecimal digit with value `m` (values ≥ 16 collapse to
the zero digit; callers always pass residues mod 16). -/
def hexCharOf (m : Nat) : Char :=
  if m < 10 then Char.ofNat ('0'.toNat + m)
  else if m < 16 then Char.ofNat ('a'.toNat + (m - 10))
  else '0'

/-- Fixed-width big-endian hexadecimal rendering of a natural number. -/
def natToHexFixed : Nat → Nat → List Char
  | 0, _ => []
  | k + 1, n => natToHexFixed k (n / 16) ++ [hexCharOf (n % 16)]

/-- Modelled from the spec: the state of a single worktree as the Commit
Coordinator sees it — its branch, the number of changed paths (staged,
modified and untracked), its commit log (full hashes, newest first) and the
counter from which the next commit hash is drawn.  Log entries pair the
commit's full hash with its message, newest first. -/
structure WorktreeGit where
  branch : String
  changedFiles : Nat
  log : List (String × String)
  nextId : Nat
  deriving DecidableEq, Repr

/-- The full 40-character hash the next commit in this worktree receives. -/
def fullHashOf (wt : WorktreeGit) : String :=
  String.mk (natToHexFixed 40 wt.nextId)

/-- Result of `commit`, per the spec §3 data model. -/
structure CommitResult where
  committed : Bool
  branch : String
  commitHash : Option String
  message : Option String
  deriving DecidableEq, Repr

/-- Modelled from the spec §4.3: `commit(worktreePath, message)` stages all
pending modifications; on a clean tree it succeeds with `committed = false`
and "No changes to commit"; otherwise it records a new commit and returns the
first 8 hex characters of the new commit's full hash. -/
def commit (wt : WorktreeGit) (msg : String) : WorktreeGit × CommitResult :=
  if wt.changedFiles = 0 then
    (wt, ⟨false, wt.branch, none, some "No changes to commit"⟩)
  else
    let full := fullHashOf wt
    ({ wt with changedFiles := 0, log := (full, msg) :: wt.log, nextId := wt.nextId + 1 },
     ⟨true, wt.branch, some (String.mk (full.data.take 8)), none⟩)

/-! ### Request validation

Modelled from the spec §4.5, with the required field names pinned by the
integration tests: the commit route requires `worktreePath` and `message`;
the switch-branch route requires `worktreePath` and `branchName` (the tests
post a request missing `worktreePath` and expect an error naming it).  A
request is a record of optional fields; the Bool in each handler's result
records whether any external command was executed. -/

/-- A commit request as received by the route (fields may be absent). -/
structure CommitRequest where
  worktreePath : Option String
  message : Option String
  deriving DecidableEq, Repr

/-- A switch-branch request as received by the route (fields may be absent;
`repoPath` is carried to show it plays no role in validation). -/
structure SwitchRequest where
  repoPath : Option String
  worktreePath : Option String
  branchName : Option String
  deriving DecidableEq, Repr

/-- The success/failure envelope every route returns. -/
structure Envelope (α : Type) where
  success : Bool
  error : Option String
  result : Option α
  deriving DecidableEq, Repr

/-- The validation failure message for a missing required field; it contains
the field's name verbatim. -/
def missingFieldError (fieldName : String) : String :=
  fieldName ++ " is required"

/-- Modelled from the spec: the commit route — validate `worktreePath` then
`message`, short-circuiting before any external command (the Bool component),
then run the Commit Coordinator. -/
def handleCommitRequest (req : CommitRequest) (wt : WorktreeGit) :
    WorktreeGit × Bool × Envelope CommitResult :=
  match req.worktreePath with
  | none => (wt, false, ⟨false, some (missingFieldError "worktreePath"), none⟩)
  | some _ =>
    match req.message with
    | none => (wt, false, ⟨false, some (missingFieldError "message"), none⟩)
    | some msg =>
      let r := commit wt msg
      (r.1, true, ⟨true, none, some r.2⟩)

/-- Modelled from the spec and the integration tests: the switch-branch route
— validate `worktreePath` then `branchName`, short-circuiting before any
external command, then run the Branch Switcher. -/
def handleSwitchRequest (req : SwitchRequest) (st : RepoState) :
    RepoState × Bool × Envelope SwitchResult :=
  match req.worktreePath with
  | none => (st, false, ⟨false, some (missingFieldError "worktreePath"), none⟩)
  | some _ =>
    match req.branchName with
    | none => (st, false, ⟨false, some (missingFieldError "branchName"), none⟩)
    | some b =>
      match switch st b with
      | (st1, Except.ok r) => (st1, true, ⟨true, none, some r⟩)
      | (st1, Except.error e) => (st1, true, ⟨false, some e.message, none⟩)

/-! ### Claim theorems (lifecycle) -/

/-- Shape of `create` when a worktree for the branch already exists. -/
theorem create_of_found (st : RepoState) (repoRoot branchName : String)
    (w : LinkedWorktree) (hf : findWorktree st branchName = some w) :
    create st repoRoot branchName = (st, ⟨w.branch, w.path, false⟩) := by
  simp [create, hf]

/-- Shape of `create` when no worktree for the branch exists yet. -/
theorem create_of_notFound (st : RepoState) (repoRoot branchName : String)
    (hf : findWorktree st branchName = none) :
    (create st repoRoot branchName).2
        = ⟨branchName, getWorktreePath repoRoot branchName, true⟩
    ∧ (create st repoRoot branchName).1.worktrees
        = st.worktrees ++ [⟨branchName, getWorktreePath repoRoot branchName⟩] := by
  constructor
  · simp [create, hf]
  · simp only [create, hf]
    split <;> rfl

/-- After a fresh `create`, the registry finds the new worktree. -/
theorem findWorktree_after_create (st : RepoState) (repoRoot branchName : String)
    (hf : findWorktree st branchName = none) :
    findWorktree (create st repoRoot branchName).1 branchName
        = some ⟨branchName, getWorktreePath repoRoot branchName⟩ := by
  have hfind : ∀ w ∈ st.worktrees, ¬(w.branch == branchName) = true := by
    intro w hw
    have := List.find?_eq_none.mp hf w hw
    simpa using this
  have hwt := (create_of_notFound st repoRoot branchName hf).2
  simp only [findWorktree, hwt, List.find?_append]
  rw [List.find?_eq_none.mpr hfind]
  simp

/-- Claim C1: worktree creation is idempotent.  For every repository state,
repository root and branch name, calling `create` twice yields the same
worktree path both times; the second call returns the same descriptor branch
with `isNew = false` and leaves the state reached after the first call
completely unchanged (no external mutation). -/
theorem create_idempotent (st : RepoState) (repoRoot branchName : String) :
    ((create (create st repoRoot branchName).1 repoRoot branchName).2.path
        = (create st repoRoot branchName).2.path)
    ∧ ((create (create st repoRoot branchName).1 repoRoot branchName).2.branch
        = (create st repoRoot branchName).2.branch)
    ∧ ((create (create st repoRoot branchName).1 repoRoot branchName).2.isNew
        = false)
    ∧ ((create (create st repoRoot branchName).1 repoRoot branchName).1
        = (create st repoRoot branchName).1) := by
  cases hf : findWorktree st branchName with
  | some w =>
    have h1 := create_of_found st repoRoot branchName w hf
    rw [h1]
    have h2 := create_of_found st repoRoot branchName w hf
    simp [h2]
  | none =>
    have hres := (create_of_notFound st repoRoot branchName hf).1
    have hf2 := findWorktree_after_create st repoRoot branchName hf
    have h2 := create_of_found (create st repoRoot branchName).1 repoRoot branchName
      ⟨branchName, getWorktreePath repoRoot branchName⟩ hf2
    rw [h2, hres]
    exact ⟨rfl, rfl, rfl, rfl⟩

/-- Claim C6: the worktree path is the deterministic pure function
`<repoRoot>/.worktrees/<sanitized branchName>`; sanitization replaces
path-separator characters by hyphens, so the result contains no path
separator that came from the branch name, and `feature/x` maps to
`feature-x`. -/
theorem worktree_path_deterministic (repoRoot branchName : String) :
    (getWorktreePath repoRoot branchName
        = repoRoot ++ "/.worktrees/" ++ sanitizeBranchName branchName)
    ∧ ((sanitizeBranchName branchName).data.all
        fun c => !(c == '/' || c == '\\')) = true
    ∧ sanitizeBranchName "feature/x" = "feature-x" := by
  refine ⟨rfl, ?_, by decide⟩
  simp only [sanitizeBranchName, List.all_map]
  rw [List.all_eq_true]
  intro c _
  by_cases h1 : c = '/'
  · simp [h1]
  · by_cases h2 : c = '\\'
    · simp [h2]
    · simp [Function.comp, h1, h2]

/-- Claim C2: branch switching is atomic on failure.  For every repository
state with a dirty working tree and every existing target branch distinct
from the current branch, `switch` fails with code `UNCOMMITTED_CHANGES` and a
message containing "uncommitted changes", and the state afterwards is the
original state unchanged: still on the original branch and still dirty. -/
theorem switch_dirty_fails_atomically (st : RepoState) (targetBranch : String)
    (hb : st.branches.contains targetBranch = true)
    (hne : targetBranch ≠ st.currentBranch)
    (hd : st.dirty = true) :
    switch st targetBranch
        = (st, Except.error ⟨some "UNCOMMITTED_CHANGES", uncommittedChangesMessage⟩)
    ∧ strContains uncommittedChangesMessage "uncommitted changes" = true
    ∧ (switch st targetBranch).1.currentBranch = st.currentBranch
    ∧ (switch st targetBranch).1.dirty = true := by
  have h1 : switch st targetBranch
      = (st, Except.error ⟨some "UNCOMMITTED_CHANGES", uncommittedChangesMessage⟩) := by
    have hb' : targetBranch ∈ st.branches := by simpa using hb
    simp [switch, hb', hne, hd]
  exact ⟨h1, by decide, by rw [h1], by rw [h1]; exact hd⟩

/-- Example repository for the C2 witness: dirty tree on `main`, with the
branch `test-switch-blocked` also existing. -/
def dirtyRepoExample : RepoState :=
  ⟨["main", "test-switch-blocked"], "main", true, []⟩

/-- Witness for claim C2 at a concrete dirty repository. -/
theorem switch_dirty_fails_atomically_witness :
    switch dirtyRepoExample "test-switch-blocked"
        = (dirtyRepoExample,
           Except.error ⟨some "UNCOMMITTED_CHANGES", uncommittedChangesMessage⟩)
    ∧ strContains uncommittedChangesMessage "uncommitted changes" = true
    ∧ (switch dirtyRepoExample "test-switch-blocked").1.currentBranch
        = dirtyRepoExample.currentBranch
    ∧ (switch dirtyRepoExample "test-switch-blocked").1.dirty = true :=
  switch_dirty_fails_atomically dirtyRepoExample "test-switch-blocked"
    (by decide) (by decide) (by decide)

/-- Claim C3: switching to the current branch is a no-op that succeeds with
message "Already on branch `<name>`" for every repository state whose current
branch exists, regardless of the dirty flag (the no-op shortcut precedes the
dirty-tree guard), and the state is unchanged. -/
theorem switch_noop_current_branch (st : RepoState)
    (hb : st.branches.contains st.currentBranch = true) :
    switch st st.currentBranch
        = (st, Except.ok ⟨st.currentBranch, st.currentBranch,
            "Already on branch " ++ st.currentBranch⟩) := by
  have hb' : st.currentBranch ∈ st.branches := by simpa using hb
  simp [switch, hb']

/-- Witness for claim C3 at a concrete dirty repository: the no-op switch
succeeds even though the tree is dirty. -/
theorem switch_noop_current_branch_witness :
    switch dirtyRepoExample "main"
        = (dirtyRepoExample,
           Except.ok ⟨"main", "main", "Already on branch main"⟩) :=
  switch_noop_current_branch dirtyRepoExample (by decide)

/-- With pairwise-distinct branch names, deduplication is the identity. -/
theorem dedupByBranch_of_nodup (l : List WorktreeEntry)
    (hnd : (l.map WorktreeEntry.branch).Nodup) : dedupByBranch l = l := by
  induction l with
  | nil => rw [dedupByBranch]
  | cons w ws ih =>
    simp only [List.map_cons, List.nodup_cons, List.mem_map] at hnd
    have hfilter : ws.filter (fun v => v.branch != w.branch) = ws := by
      rw [List.filter_eq_self]
      intro v hv
      simp only [bne_iff_ne, ne_eq]
      intro hcontra
      exact hnd.1 ⟨v, hv, hcontra⟩
    rw [dedupByBranch, hfilter, ih hnd.2]

/-- Claim C7: with N linked worktrees whose branches are pairwise distinct
and distinct from the main working directory's branch, `listWorktrees`
returns exactly N+1 entries (the implicit main entry plus the N linked
entries) and each branch name appears in at most one entry. -/
theorem listWorktrees_count (st : RepoState) (repoRoot : String)
    (hnd : (st.worktrees.map LinkedWorktree.branch).Nodup)
    (hmain : st.currentBranch ∉ st.worktrees.map LinkedWorktree.branch) :
    (listWorktrees st repoRoot).length = st.worktrees.length + 1
    ∧ ((listWorktrees st repoRoot).map WorktreeEntry.branch).Nodup := by
  have hmap : (st.worktrees.map fun w => (⟨w.branch, w.path, false⟩ : WorktreeEntry)).map
      WorktreeEntry.branch = st.worktrees.map LinkedWorktree.branch := by
    simp [List.map_map, Function.comp]
  have hnodup : (((⟨st.currentBranch, repoRoot, true⟩ : WorktreeEntry) ::
      st.worktrees.map fun w => (⟨w.branch, w.path, false⟩ : WorktreeEntry)).map
        WorktreeEntry.branch).Nodup := by
    simp only [List.map_cons, List.nodup_cons, hmap]
    exact ⟨hmain, hnd⟩
  have hid := dedupByBranch_of_nodup _ hnodup
  unfold listWorktrees
  rw [hid]
  refine ⟨?_, hnodup⟩
  simp

/-- Example repository for the C7 witness: two linked worktrees plus main. -/
def listRepoExample : RepoState :=
  ⟨["main", "feature/list-test-1", "feature/list-test-2"], "main", false,
   [⟨"feature/list-test-1", "/repo/.worktrees/feature-list-test-1"⟩,
    ⟨"feature/list-test-2", "/repo/.worktrees/feature-list-test-2"⟩]⟩

/-- Witness for claim C7: a repository with 2 linked worktrees lists exactly
3 entries with pairwise distinct branch names. -/
theorem listWorktrees_count_witness :
    (listWorktrees listRepoExample "/repo").length = 2 + 1
    ∧ ((listWorktrees listRepoExample "/repo").map WorktreeEntry.branch).Nodup :=
  listWorktrees_count listRepoExample "/repo" (by decide) (by decide)

/-- Claim C4: committing on a clean worktree returns the successful response
`{committed := false, message := "No changes to commit"}`, not an error, and
leaves the worktree — in particular its commit log length — unchanged. -/
theorem commit_clean_noop (wt : WorktreeGit) (msg : String)
    (hclean : wt.changedFiles = 0) :
    (commit wt msg).2 = ⟨false, wt.branch, none, some "No changes to commit"⟩
    ∧ (commit wt msg).1 = wt
    ∧ (commit wt msg).1.log.length = wt.log.length := by
  simp [commit, hclean]

/-- Example worktree for the C4 witness: clean tree with one prior commit. -/
def cleanWorktreeExample : WorktreeGit :=
  ⟨"feature/no-changes-commit", 0, [("deadbeef", "Initial commit")], 1⟩

/-- Witness for claim C4 at a concrete clean worktree. -/
theorem commit_clean_noop_witness :
    (commit cleanWorktreeExample "Empty commit attempt").2
        = ⟨false, cleanWorktreeExample.branch, none, some "No changes to commit"⟩
    ∧ (commit cleanWorktreeExample "Empty commit attempt").1 = cleanWorktreeExample
    ∧ (commit cleanWorktreeExample "Empty commit attempt").1.log.length
        = cleanWorktreeExample.log.length :=
  commit_clean_noop cleanWorktreeExample "Empty commit attempt" (by decide)

/-- `natToHexFixed k n` always has exactly `k` characters. -/
theorem length_natToHexFixed (k : Nat) : ∀ n, (natToHexFixed k n).length = k := by
  induction k with
  | zero => intro n; rfl
  | succ k ih => intro n; simp [natToHexFixed, ih]

/-- `hexCharOf` always yields a lowercase hexadecimal digit. -/
theorem hexCharOf_isLowerHex (m : Nat) : isLowerHexDigit (hexCharOf m) = true := by
  unfold hexCharOf
  by_cases h1 : m < 10
  · rw [if_pos h1]
    interval_cases m <;> decide
  · rw [if_neg h1]
    by_cases h2 : m < 16
    · rw [if_pos h2]
      have h3 : 10 ≤ m := Nat.le_of_not_lt h1
      interval_cases m <;> decide
    · rw [if_neg h2]
      decide

/-- Every character of `natToHexFixed` is a lowercase hexadecimal digit. -/
theorem natToHexFixed_isLowerHex (k : Nat) :
    ∀ n c, c ∈ natToHexFixed k n → isLowerHexDigit c = true := by
  induction k with
  | zero => intro n c hc; simp [natToHexFixed] at hc
  | succ k ih =>
    intro n c hc
    simp only [natToHexFixed, List.mem_append, List.mem_singleton] at hc
    rcases hc with h | h
    · exact ih _ _ h
    · rw [h]; exact hexCharOf_isLowerHex _

/-- Claim C5: whenever a `CommitResult` carries a `commitHash`, that hash is
exactly 8 characters, every character is a lowercase hexadecimal digit, and
it equals the first 8 characters of the new commit's full hash (the hash now
at the head of the worktree's log). -/
theorem commitHash_eight_hex (wt : WorktreeGit) (msg : String) (h : String)
    (hsome : (commit wt msg).2.commitHash = some h) :
    h.length = 8
    ∧ (∀ c ∈ h.data, isLowerHexDigit c = true)
    ∧ h = String.mk ((fullHashOf wt).data.take 8)
    ∧ (commit wt msg).1.log.head? = some (fullHashOf wt, msg) := by
  by_cases hclean : wt.changedFiles = 0
  · simp [commit, hclean] at hsome
  · have hh : h = String.mk ((fullHashOf wt).data.take 8) := by
      simp [commit, hclean] at hsome
      exact hsome.symm
    subst hh
    refine ⟨?_, ?_, rfl, ?_⟩
    · simp [String.length_mk, fullHashOf, List.length_take, length_natToHexFixed]
    · intro c hc
      simp only [String.data] at hc
      have hc' : c ∈ (fullHashOf wt).data := List.take_subset _ _ hc
      simp only [fullHashOf] at hc'
      exact natToHexFixed_isLowerHex 40 wt.nextId c hc'
    · simp [commit, hclean]

/-- Example worktree for the C5 witness: one pending change, hash counter 0,
so the new full hash is forty `'0'`s and the abbreviated hash is
`"00000000"`. -/
def dirtyWorktreeExample : WorktreeGit := ⟨"feature/commit-test", 1, [], 0⟩

/-- Witness for claim C5 at a concrete worktree with pending changes. -/
theorem commitHash_eight_hex_witness :
    ("00000000" : String).length = 8
    ∧ (∀ c ∈ ("00000000" : String).data, isLowerHexDigit c = true)
    ∧ ("00000000" : String) = String.mk ((fullHashOf dirtyWorktreeExample).data.take 8)
    ∧ (commit dirtyWorktreeExample "Add test file").1.log.head?
        = some (fullHashOf dirtyWorktreeExample, "Add test file") :=
  commitHash_eight_hex dirtyWorktreeExample "Add test file" "00000000" (by decide)

/-- Claim C8: a commit request missing `worktreePath` fails with
`success = false` and an error message containing "worktreePath"; one missing
`message` fails with an error containing "message"; in both cases no external
command runs (the Bool component is `false`) and the worktree is untouched. -/
theorem commit_missing_field_validation (wt : WorktreeGit)
    (m : Option String) (wpath : String) :
    (handleCommitRequest ⟨none, m⟩ wt
        = (wt, false, ⟨false, some (missingFieldError "worktreePath"), none⟩))
    ∧ strContains (missingFieldError "worktreePath") "worktreePath" = true
    ∧ (handleCommitRequest ⟨some wpath, none⟩ wt
        = (wt, false, ⟨false, some (missingFieldError "message"), none⟩))
    ∧ strContains (missingFieldError "message") "message" = true :=
  ⟨rfl, by decide, rfl, by decide⟩

/-- Example repository for the switch-route theorems: clean tree on `main`. -/
def switchRepoExample : RepoState := ⟨["main"], "main", false, []⟩

/-- Counterexample to claim C9 as stated: `repoPath` is NOT among the switch
route's required fields.  The concrete request `{repoPath := none,
worktreePath := "/repo", branchName := "main"}` — which omits `repoPath` —
succeeds rather than failing with an error naming "repoPath". -/
theorem switch_repoPath_not_required :
    ¬ (∀ (req : SwitchRequest) (st : RepoState), req.repoPath = none →
        (handleSwitchRequest req st).2.2.success = false
        ∧ ∃ e, (handleSwitchRequest req st).2.2.error = some e
            ∧ strContains e "repoPath" = true) := by
  intro hclaim
  have h := (hclaim ⟨none, some "/repo", some "main"⟩ switchRepoExample rfl).1
  have h2 : (handleSwitchRequest ⟨none, some "/repo", some "main"⟩
      switchRepoExample).2.2.success = true := by decide
  rw [h2] at h
  exact absurd h (by decide)

/-- Claim C9 (amended): the switch route's required field set is
`worktreePath` plus `branchName`; a request missing either fails before any
external command with an error message literally containing that field's
name, and the repository state is untouched. -/
theorem switch_missing_field_validation (st : RepoState)
    (rp b : Option String) (wpath : String) :
    (handleSwitchRequest ⟨rp, none, b⟩ st
        = (st, false, ⟨false, some (missingFieldError "worktreePath"), none⟩))
    ∧ strContains (missingFieldError "worktreePath") "worktreePath" = true
    ∧ (handleSwitchRequest ⟨rp, some wpath, none⟩ st
        = (st, false, ⟨false, some (missingFieldError "branchName"), none⟩))
    ∧ strContains (missingFieldError "branchName") "branchName" = true :=
  ⟨rfl, by decide, rfl, by decide⟩

/-! ### Board columns

Embedded from `src/apps/app/src/components/views/board-view/hooks/`
`use-board-column-features.ts`.  The hook filters features by the search
query, distributes them over the five column arrays (a running agent forces
`in_progress`; otherwise the feature's status picks the column, defaulting to
`backlog` for unknown statuses), then reorders the backlog through the
external dependency resolver.  The resolver lives outside the checked-in
sources, so it is a parameter here; the theorems assume only that it permutes
its input. -/

/-- A feature record as the hook consumes it. -/
structure Feature where
  id : String
  description : String
  category : Option String
  status : String
  deriving DecidableEq, Repr

/-- The five board column identifiers (the keys of the hook's `map`). -/
inductive ColId
  | backlog
  | in_progress
  | waiting_approval
  | verified
  | completed
  deriving DecidableEq, Repr

/-- The hook's `map`: one feature list per column. -/
structure ColumnMap where
  backlog : List Feature
  in_progress : List Feature
  waiting_approval : List Feature
  verified : List Feature
  completed : List Feature
  deriving DecidableEq, Repr

/-- The initial map with five empty columns. -/
def emptyColumns : ColumnMap := ⟨[], [], [], [], []⟩

/-- Read one column of the map. -/
def ColumnMap.get (m : ColumnMap) : ColId → List Feature
  | .backlog => m.backlog
  | .in_progress => m.in_progress
  | .waiting_approval => m.waiting_approval
  | .verified => m.verified
  | .completed => m.completed

/-- Append a feature to one column (JavaScript `push`). -/
def ColumnMap.push (m : ColumnMap) (c : ColId) (f : Feature) : ColumnMap :=
  match c with
  | .backlog => { m with backlog := m.backlog ++ [f] }
  | .in_progress => { m with in_progress := m.in_progress ++ [f] }
  | .waiting_approval => { m with waiting_approval := m.waiting_approval ++ [f] }
  | .verified => { m with verified := m.verified ++ [f] }
  | .completed => { m with completed := m.completed ++ [f] }

/-- The source's `map[status]` truthiness test: which known column a status
string names, if any. -/
def knownColumn (s : String) : Option ColId :=
  if s == "backlog" then some .backlog
  else if s == "in_progress" then some .in_progress
  else if s == "waiting_approval" then some .waiting_approval
  else if s == "verified" then some .verified
  else if s == "completed" then some .completed
  else none

/-- Where the hook's forEach body places a feature: running agents force
`in_progress`, otherwise the status column, defaulting to `backlog`. -/
def targetColumn (runningAutoTasks : List String) (f : Feature) : ColId :=
  if runningAutoTasks.contains f.id then .in_progress
  else (knownColumn f.status).getD .backlog

/-- One step of the hook's forEach. -/
def placeFeature (runningAutoTasks : List String) (m : ColumnMap)
    (f : Feature) : ColumnMap :=
  m.push (targetColumn runningAutoTasks f) f

/-- Character-list model of JavaScript `toLowerCase`. -/
def toLowerStr (s : String) : String :=
  String.mk (s.data.map Char.toLower)

/-- Whitespace for the purposes of JavaScript `trim`. -/
def isWhitespaceChar (c : Char) : Bool :=
  c == ' ' || c == '\t' || c == '\n' || c == '\r'

/-- Character-list model of JavaScript `trim`: drop leading and trailing
whitespace. -/
def trimStr (s : String) : String :=
  String.mk
    (((s.data.dropWhile isWhitespaceChar).reverse.dropWhile
        isWhitespaceChar).reverse)

/-- The hook's search predicate: case-insensitive containment in the
description or the optional category. -/
def matchesSearch (normalizedQuery : String) (f : Feature) : Bool :=
  strContains (toLowerStr f.description) normalizedQuery
    || (match f.category with
        | some cat => strContains (toLowerStr cat) normalizedQuery
        | none => false)

/-- The hook's filtering stage: lowercase and trim the query; an empty
normalized query keeps all features. -/
def filterFeatures (features : List Feature) (searchQuery : String) :
    List Feature :=
  let normalizedQuery := trimStr (toLowerStr searchQuery)
  if normalizedQuery == "" then features
  else features.filter (matchesSearch normalizedQuery)

/-- The hook's final step: when the backlog is nonempty, replace it by the
dependency resolver's ordering of it. -/
def applyBacklogResolve (resolve : List Feature → List Feature)
    (m : ColumnMap) : ColumnMap :=
  if 0 < m.backlog.length then { m with backlog := resolve m.backlog } else m

/-- The hook's `columnFeaturesMap`, parameterized by the external dependency
resolver. -/
def columnFeaturesMap (resolve : List Feature → List Feature)
    (features : List Feature) (runningAutoTasks : List String)
    (searchQuery : String) : ColumnMap :=
  applyBacklogResolve resolve
    ((filterFeatures features searchQuery).foldl
      (placeFeature runningAutoTasks) emptyColumns)

/-- Every column of the empty map is empty. -/
theorem get_emptyColumns (c : ColId) : emptyColumns.get c = [] := by
  cases c <;> rfl

/-- Membership in a column after a push. -/
theorem mem_get_push (m : ColumnMap) (c' c : ColId) (f x : Feature) :
    x ∈ (m.push c' f).get c ↔ x ∈ m.get c ∨ (x = f ∧ c = c') := by
  cases c' <;> cases c <;>
    simp [ColumnMap.push, ColumnMap.get]

/-- Membership in a column after folding the forEach body over a list. -/
theorem mem_get_foldl (running : List String) (l : List Feature) :
    ∀ (m : ColumnMap) (x : Feature) (c : ColId),
      x ∈ (l.foldl (placeFeature running) m).get c
        ↔ x ∈ m.get c ∨ (x ∈ l ∧ targetColumn running x = c) := by
  induction l with
  | nil => intro m x c; simp
  | cons f t ih =>
    intro m x c
    rw [List.foldl_cons, ih]
    simp only [placeFeature]
    rw [mem_get_push]
    simp only [List.mem_cons]
    constructor
    · rintro ((hm | ⟨rfl, hc⟩) | ⟨ht, hc⟩)
      · exact Or.inl hm
      · exact Or.inr ⟨Or.inl rfl, hc.symm⟩
      · exact Or.inr ⟨Or.inr ht, hc⟩
    · rintro (hm | ⟨rfl | ht, hc⟩)
      · exact Or.inl (Or.inl hm)
      · exact Or.inl (Or.inr ⟨rfl, hc.symm⟩)
      · exact Or.inr ⟨ht, hc⟩

/-- A permuting resolver does not change column membership. -/
theorem mem_get_applyBacklogResolve (resolve : List Feature → List Feature)
    (hres : ∀ l, (resolve l).Perm l) (m : ColumnMap) (x : Feature) (c : ColId) :
    x ∈ (applyBacklogResolve resolve m).get c ↔ x ∈ m.get c := by
  unfold applyBacklogResolve
  split
  · cases c <;> simp [ColumnMap.get, (hres m.backlog).mem_iff]
  · exact Iff.rfl

/-- Claim C10: in the board-column hook, every feature that passes the search
filter sits in exactly one column of the returned map, namely its target
column: `in_progress` whenever its id is among the running auto-tasks
(regardless of status), otherwise the column named by its status, or
`backlog` when the status is not a known column id.  The external dependency
resolver is assumed only to permute the backlog. -/
theorem board_feature_in_exactly_one_column
    (resolve : List Feature → List Feature)
    (hres : ∀ l, (resolve l).Perm l)
    (features : List Feature) (runningAutoTasks : List String)
    (searchQuery : String) (f : Feature)
    (hf : f ∈ filterFeatures features searchQuery) (c : ColId) :
    f ∈ (columnFeaturesMap resolve features runningAutoTasks searchQuery).get c
      ↔ c = targetColumn runningAutoTasks f := by
  unfold columnFeaturesMap
  rw [mem_get_applyBacklogResolve resolve hres, mem_get_foldl]
  simp [get_emptyColumns, hf, eq_comm]

/-- Example feature for the C10 witness: status `verified`, but its id is
among the running auto-tasks, so it lands in `in_progress`. -/
def boardFeatureExample : Feature :=
  ⟨"feat-1", "Add login page", some "UI", "verified"⟩

/-- Witness for claim C10: the concrete running feature is a member of the
`in_progress` column of the returned map. -/
theorem board_feature_in_exactly_one_column_witness :
    boardFeatureExample ∈
      (columnFeaturesMap id [boardFeatureExample] ["feat-1"] "").get
        ColId.in_progress :=
  (board_feature_in_exactly_one_column id (fun l => List.Perm.refl l)
      [boardFeatureExample] ["feat-1"] "" boardFeatureExample
      (by decide) ColId.in_progress).mpr (by decide)

end Automaker
